import Mathlib

/-!
Verification of the SPIRV-Cross MSL back-end (`spirv_msl.cpp`).

Shallow embedding: the C++ data model and the operations under scrutiny are
translated into executable Lean definitions, and the specified properties are
proved (or refuted) about those definitions.  IDs are `Nat`, the mutable ID
pool and meta tables become explicit state records, and fallible code returns
`Except String`.  The file is laid out with all definitions first, followed by
the lemmas and theorems.
-/

namespace SpirvMSL

/-- SPIR-V execution models (shader stages), from the SPIR-V specification. -/
inductive ExecutionModel where
  | Vertex
  | TessellationControl
  | TessellationEvaluation
  | Geometry
  | Fragment
  | GLCompute
  | Kernel
deriving DecidableEq, Repr

/-- SPIR-V storage classes used by the MSL back-end. -/
inductive StorageClass where
  | Input
  | Output
  | Uniform
  | UniformConstant
  | PushConstant
  | StorageBuffer
  | Private
  | Workgroup
  | Function
  | Generic
deriving DecidableEq, Repr

/-! ## Driver loop (`CompilerMSL::compile`, spirv_msl.cpp lines 107-130)

The emission passes (`emit_header`, `emit_specialization_constants`,
`emit_resources`, `emit_custom_functions`, `emit_function`) and the
`force_recompile` flag raised during pass `k` are abstracted as functions of
the pass counter; their bodies live elsewhere in the back-end and do not
affect the loop structure being verified. -/

/-- Abstract behaviour of one emission pass: the text each of the five
emission stages appends during pass `k`, and whether pass `k` leaves the
`force_recompile` flag set. -/
structure PassEmitter where
  emitHeader : Nat → String
  emitSpecializationConstants : Nat → String
  emitResources : Nat → String
  emitCustomFunctions : Nat → String
  emitEntryFunction : Nat → String
  forceRecompile : Nat → Bool

/-- The text buffered during pass `k`: the buffer is cleared at the start of
the pass and the five emission stages append to it in source order
(spirv_msl.cpp lines 118-124). -/
def runEmissionPass (E : PassEmitter) (k : Nat) : String :=
  let buffer := ""
  let buffer := buffer ++ E.emitHeader k
  let buffer := buffer ++ E.emitSpecializationConstants k
  let buffer := buffer ++ E.emitResources k
  let buffer := buffer ++ E.emitCustomFunctions k
  let buffer := buffer ++ E.emitEntryFunction k
  buffer

/-- The diagnostic thrown when the recompilation loop exceeds three passes
(spirv_msl.cpp line 111). -/
def overLoopMsg : String := "Over 3 compilation loops detected. Must be a bug!"

/-- The `do { ... } while (force_recompile)` loop of `CompilerMSL::compile`
(spirv_msl.cpp lines 107-127): abort if `pass_count >= 3`, otherwise run one
emission pass and repeat while the recompile flag is set. -/
def compileLoop (E : PassEmitter) (passCount : Nat) : Except String String :=
  if h : passCount ≥ 3 then
    .error overLoopMsg
  else
    let out := runEmissionPass E passCount
    if E.forceRecompile passCount then compileLoop E (passCount + 1) else .ok out
termination_by 3 - passCount
decreasing_by omega

/-- Entry of `CompilerMSL::compile` into the emission loop with `pass_count = 0`
and returns the buffered text of the final pass (spirv_msl.cpp line 129). -/
def compileMSL (E : PassEmitter) : Except String String :=
  compileLoop E 0

/-! ## Global-variable localization
(`CompilerMSL::localize_global_variables`, spirv_msl.cpp lines 178-195) -/

/-- The slice of compiler state touched by `localize_global_variables`:
the storage class recorded for each variable ID, the module's
`global_variables` list, and the entry function's local-variable list. -/
structure LocalizeState where
  storageOf : Nat → StorageClass
  globals : List Nat
  entryLocals : List Nat

/-- The iteration of `localize_global_variables` over the global-variable
list: a `Private` or `Workgroup` variable has its storage class rewritten to
`Function`, is appended to the entry function's locals, and is erased from
the globals list; any other variable is kept. -/
def localizeAux (st : Nat → StorageClass) (locals : List Nat) :
    List Nat → ((Nat → StorageClass) × List Nat × List Nat)
  | [] => (st, locals, [])
  | v :: rest =>
    if st v = .Private ∨ st v = .Workgroup then
      localizeAux (fun x => if x = v then .Function else st x) (locals ++ [v]) rest
    else
      let r := localizeAux st locals rest
      (r.1, r.2.1, v :: r.2.2)

/-- Embedding of `CompilerMSL::localize_global_variables` as a state transformer. -/
def localize_global_variables (s : LocalizeState) : LocalizeState :=
  let r := localizeAux s.storageOf s.entryLocals s.globals
  { storageOf := r.1, globals := r.2.2, entryLocals := r.2.1 }

/-! ## SPIR-V enumeration constants

Numeric values fixed by the SPIR-V specification (the `spv` headers are an
external collaborator of the reviewed fragment). -/

def MemorySemanticsMaskNone : Nat := 0
def MemorySemanticsSubgroupMemoryMask : Nat := 0x80
def MemorySemanticsWorkgroupMemoryMask : Nat := 0x100
def MemorySemanticsCrossWorkgroupMemoryMask : Nat := 0x200
def MemorySemanticsAtomicCounterMemoryMask : Nat := 0x400
def MemorySemanticsImageMemoryMask : Nat := 0x800

def ScopeCrossDevice : Nat := 0
def ScopeDevice : Nat := 1
def ScopeWorkgroup : Nat := 2
def ScopeSubgroup : Nat := 3
def ScopeInvocation : Nat := 4

/-! ## Configuration (`MSLConfiguration`)

Modelled from the spec (§6): a configuration record enumerating the target
MSL version (major/minor) and the platform (`iOS` | `macOS`); the record
itself is declared in the back-end's header, outside the reviewed fragment. -/

/-- Modelled from the spec (§6): the target platform of the translation. -/
inductive MSLPlatform where
  | iOS
  | macOS
deriving DecidableEq, Repr

/-- Modelled from the spec (§6): target MSL version (major/minor) and
platform. -/
structure MSLConfiguration where
  platform : MSLPlatform
  msl_major : Nat
  msl_minor : Nat
deriving DecidableEq

/-- Modelled from the spec (§6): whether the configured platform is iOS. -/
def MSLConfiguration.is_ios (c : MSLConfiguration) : Bool :=
  c.platform = .iOS

/-- Modelled from the spec (§6): versions are compared as
`major * 10000 + minor * 100`. -/
def make_msl_version (major minor : Nat) : Nat :=
  major * 10000 + minor * 100

/-- Modelled from the spec (§6): whether the configured MSL version is at
least `major.minor`. -/
def MSLConfiguration.supports_msl_version (c : MSLConfiguration)
    (major minor : Nat) : Bool :=
  make_msl_version c.msl_major c.msl_minor ≥ make_msl_version major minor

/-! ## Barrier emission (`CompilerMSL::emit_barrier`, spirv_msl.cpp
lines 1639-1688)

`constScalar` abstracts `get<SPIRConstant>(id).scalar()`: the scalar value of
the constant stored at a given ID.  The C++ guards `id ? ... : fallback`
become tests against the null ID `0`.  The function returns the emitted
statement, or `none` when the execution model is not `GLCompute` and nothing
is emitted. -/
def emit_barrier (cfg : MSLConfiguration) (constScalar : Nat → Nat)
    (model : ExecutionModel) (id_exe_scope id_mem_scope id_mem_sem : Nat) :
    Option String :=
  if model ≠ .GLCompute then none
  else
    let mem_sem := if id_mem_sem ≠ 0 then constScalar id_mem_sem
      else MemorySemanticsMaskNone
    let bar_stmt := "threadgroup_barrier(mem_flags::"
    let bar_stmt := bar_stmt ++
      (if mem_sem &&& MemorySemanticsCrossWorkgroupMemoryMask ≠ 0 then
        "mem_device"
      else if mem_sem &&& (MemorySemanticsSubgroupMemoryMask |||
          MemorySemanticsWorkgroupMemoryMask |||
          MemorySemanticsAtomicCounterMemoryMask) ≠ 0 then
        "mem_threadgroup"
      else if mem_sem &&& MemorySemanticsImageMemoryMask ≠ 0 then
        "mem_texture"
      else
        "mem_none")
    let bar_stmt := if cfg.is_ios && cfg.supports_msl_version 2 0 then
        let exe_scope := if id_exe_scope ≠ 0 then constScalar id_exe_scope
          else ScopeInvocation
        let mem_scope := if id_mem_scope ≠ 0 then constScalar id_mem_scope
          else ScopeInvocation
        let scope := min exe_scope mem_scope
        bar_stmt ++ ", " ++
          (if scope = ScopeCrossDevice ∨ scope = ScopeDevice then
            "memory_scope_device"
          else if scope = ScopeSubgroup ∨ scope = ScopeInvocation then
            "memory_scope_simdgroup"
          else
            "memory_scope_threadgroup")
      else bar_stmt
    some (bar_stmt ++ ");")

/-- Spec-side reading of the mem_flags selection, stated over the individual
bits of the memory-semantics mask (cross-workgroup is bit 9, subgroup bit 7,
workgroup bit 8, atomic-counter bit 10, image bit 11 in the SPIR-V mask). -/
def memFlagChoice (sem : Nat) : String :=
  if sem.testBit 9 then "mem_device"
  else if sem.testBit 7 || sem.testBit 8 || sem.testBit 10 then "mem_threadgroup"
  else if sem.testBit 11 then "mem_texture"
  else "mem_none"

/-- The wider of two SPIR-V scopes: SPIR-V orders scope values from widest
(`CrossDevice = 0`) to narrowest (`Invocation = 4`), so the wider scope is
the numerically smaller value. -/
def widerScope (exe mem : Nat) : Nat := min exe mem

/-- The narrower of two SPIR-V scopes: the numerically larger value. -/
def narrowerScope (exe mem : Nat) : Nat := max exe mem

/-- Spec-side reading of the scope-name switch of `emit_barrier`. -/
def scopeChoice (scope : Nat) : String :=
  if scope ≤ 1 then "memory_scope_device"
  else if scope = 3 ∨ scope = 4 then "memory_scope_simdgroup"
  else "memory_scope_threadgroup"

/-- Modelled from the spec's words for claim comparison: a variant of
`emit_barrier` whose memory scope is derived from the *narrower* of the
execution scope and the memory scope, as the spec sentence states (the
source instead takes the wider one). -/
def emit_barrier_narrow_variant (cfg : MSLConfiguration)
    (constScalar : Nat → Nat) (model : ExecutionModel)
    (id_exe_scope id_mem_scope id_mem_sem : Nat) : Option String :=
  if model ≠ .GLCompute then none
  else
    let mem_sem := if id_mem_sem ≠ 0 then constScalar id_mem_sem
      else MemorySemanticsMaskNone
    let bar_stmt := "threadgroup_barrier(mem_flags::" ++ memFlagChoice mem_sem
    let bar_stmt := if cfg.is_ios && cfg.supports_msl_version 2 0 then
        let exe_scope := if id_exe_scope ≠ 0 then constScalar id_exe_scope
          else ScopeInvocation
        let mem_scope := if id_mem_scope ≠ 0 then constScalar id_mem_scope
          else ScopeInvocation
        bar_stmt ++ ", " ++ scopeChoice (narrowerScope exe_scope mem_scope)
      else bar_stmt
    some (bar_stmt ++ ");")

/-! ## Barrier instruction emission
(`CompilerMSL::emit_instruction`, `OpMemoryBarrier` / `OpControlBarrier`
cases, spirv_msl.cpp lines 1599-1609 and 1636) -/

/-- The opcodes relevant to barrier suppression; every other opcode is
represented by its numeric code. -/
inductive Opcode where
  | OpNop
  | OpMemoryBarrier
  | OpControlBarrier
  | OpOther (code : Nat)
deriving DecidableEq, Repr

/-- The barrier instructions with their operand IDs.  `OpMemoryBarrier`
carries (memory scope, semantics); `OpControlBarrier` carries
(execution scope, memory scope, semantics). -/
inductive BarrierInstr where
  | memoryBarrier (idMemScope idMemSem : Nat)
  | controlBarrier (idExeScope idMemScope idMemSem : Nat)
deriving DecidableEq

/-- The state threaded through instruction emission: the
`previous_instruction_opcode` field and the statements emitted so far. -/
structure EmitState where
  prevOpcode : Opcode
  statements : List String
deriving DecidableEq

/-- The `OpMemoryBarrier` / `OpControlBarrier` cases of
`CompilerMSL::emit_instruction`: a memory barrier always calls
`emit_barrier(0, ops[0], ops[1])`; a control barrier calls
`emit_barrier(ops[0], ops[1], ops[2])` only when the previous instruction was
not a memory barrier; `previous_instruction_opcode` is updated at the end of
every dispatch (line 1636). -/
def emit_instruction (cfg : MSLConfiguration) (constScalar : Nat → Nat)
    (model : ExecutionModel) (i : BarrierInstr) (s : EmitState) : EmitState :=
  match i with
  | .memoryBarrier a b =>
    { prevOpcode := .OpMemoryBarrier,
      statements := s.statements ++ (emit_barrier cfg constScalar model 0 a b).toList }
  | .controlBarrier a b c =>
    { prevOpcode := .OpControlBarrier,
      statements :=
        if s.prevOpcode ≠ .OpMemoryBarrier then
          s.statements ++ (emit_barrier cfg constScalar model a b c).toList
        else s.statements }

/-! ## Interface-block member dispatch
(`CompilerMSL::should_move_to_input_buffer`, spirv_msl.cpp lines 590-615,
and its call sites in `add_interface_block`, lines 484-487 and 537-540) -/

/-- The slice of `SPIRType` consulted by the matrix/array tests: the matrix
column count, the vector size, and the array-dimension list (spec §3). -/
structure SPIRType where
  columns : Nat
  vecsize : Nat
  array : List Nat
deriving DecidableEq

/-- Modelled from the spec (§3 data model; the helper lives in the shared
base compiler outside the reviewed fragment): a type is a matrix when it has
more than one column of vectors. -/
def is_matrix (t : SPIRType) : Bool :=
  decide (1 < t.vecsize) && decide (1 < t.columns)

/-- Modelled from the spec (§3 data model; base-compiler helper outside the
reviewed fragment): a type is an array when its array-dimension list is
non-empty. -/
def is_array (t : SPIRType) : Bool :=
  decide (t.array ≠ [])

/-- Embedding of `CompilerMSL::should_move_to_input_buffer`: returns whether a member of
the given type/storage must be diverted to a secondary input buffer block,
throwing for the unsupported matrix/array positions. -/
def should_move_to_input_buffer (t : SPIRType) (is_builtin : Bool)
    (storage : StorageClass) (model : ExecutionModel) : Except String Bool :=
  if (is_matrix t || is_array t) && !is_builtin then
    if model = .Vertex then
      if storage = .Input then .ok true
      else if storage = .Output then
        .error "The vertex function output structure may not include a matrix or array."
      else .ok false
    else if model = .Fragment then
      if storage = .Input then
        .error "The fragment function stage_in structure may not include a matrix or array."
      else if storage = .Output then
        .error "The fragment function output structure may not include a matrix or array."
      else .ok false
    else .ok false
  else .ok false

/-- What `add_interface_block` does with one candidate member. -/
inductive MemberAction where
  | moveToInputBuffer
  | addToInterfaceBlock
  | skip
deriving DecidableEq, Repr

/-- The per-member dispatch of `add_interface_block` (lines 484-487 and
537-540): a member for which `should_move_to_input_buffer` holds is moved to
a secondary input buffer block and not pushed into the interface struct;
otherwise it is added when it is not a built-in (or is an active built-in),
and skipped when it is an inactive built-in. -/
def interface_member_action (t : SPIRType) (is_builtin : Bool)
    (has_active_builtin : Bool) (storage : StorageClass)
    (model : ExecutionModel) : Except String MemberAction :=
  match should_move_to_input_buffer t is_builtin storage model with
  | .error e => .error e
  | .ok true => .ok .moveToInputBuffer
  | .ok false =>
    if !is_builtin || has_active_builtin then .ok .addToInterfaceBlock
    else .ok .skip

/-! ## Resource binding indices
(`CompilerMSL::get_metal_resource_index`, spirv_msl.cpp lines 2769-2810) -/

/-- The base-type discriminator of `SPIRType` (spec §3). -/
inductive BaseType where
  | Unknown
  | Void
  | Boolean
  | Char
  | Int
  | UInt
  | Int64
  | UInt64
  | AtomicCounter
  | Half
  | Float
  | Double
  | Struct
  | Image
  | SampledImage
  | Sampler
deriving DecidableEq, Repr

/-- A user-supplied resource-binding record (spec §6), including the
per-class MSL indices and the output `used_by_shader` flag. -/
structure MSLResourceBinding where
  stage : ExecutionModel
  desc_set : Nat
  binding : Nat
  msl_buffer : Nat
  msl_texture : Nat
  msl_sampler : Nat
  used_by_shader : Bool
deriving DecidableEq

/-- Value of `MSLResourceBinding()` as used for `next_metal_resource_index`: the
automatic binding counters start at zero (spirv_msl.cpp line 115). -/
def MSLResourceBinding.zero : MSLResourceBinding :=
  { stage := .Vertex, desc_set := 0, binding := 0, msl_buffer := 0,
    msl_texture := 0, msl_sampler := 0, used_by_shader := false }

/-- Modelled from the spec (§6): the reserved descriptor-set sentinel used
for push constants (declared in the back-end header outside the reviewed
fragment as `~0`). -/
def kPushConstDescSet : Nat := 4294967295

/-- Modelled from the spec (§6): the reserved binding sentinel used for push
constants. -/
def kPushConstBinding : Nat := 0

/-- The decorations of a resource variable consulted by
`get_metal_resource_index`: storage class, descriptor set and binding. -/
structure ResourceVar where
  storage : StorageClass
  desc_set : Nat
  binding : Nat
deriving DecidableEq

/-- The record-matching test of `get_metal_resource_index` (lines 2773-2780):
stage, descriptor set and binding must agree, with the push-constant
sentinels substituted for `PushConstant` variables. -/
def resource_binding_matches (model : ExecutionModel) (v : ResourceVar)
    (b : MSLResourceBinding) : Bool :=
  let var_desc_set := if v.storage = .PushConstant then kPushConstDescSet
    else v.desc_set
  let var_binding := if v.storage = .PushConstant then kPushConstBinding
    else v.binding
  b.stage = model && b.desc_set = var_desc_set && b.binding = var_binding

/-- Embedding of `CompilerMSL::get_metal_resource_index`: scan the user-supplied binding
records in order; on the first match, flag it used and return its per-class
index; with no match, consume and increment the per-class automatic counter.
Returns (index, updated binding list, updated counters). -/
def get_metal_resource_index (model : ExecutionModel) (v : ResourceVar)
    (basetype : BaseType) :
    List MSLResourceBinding → MSLResourceBinding →
    Nat × List MSLResourceBinding × MSLResourceBinding
  | [], counters =>
    match basetype with
    | .Struct => (counters.msl_buffer, [],
        { counters with msl_buffer := counters.msl_buffer + 1 })
    | .Image => (counters.msl_texture, [],
        { counters with msl_texture := counters.msl_texture + 1 })
    | .Sampler => (counters.msl_sampler, [],
        { counters with msl_sampler := counters.msl_sampler + 1 })
    | _ => (0, [], counters)
  | b :: rest, counters =>
    if resource_binding_matches model v b then
      let marked := { b with used_by_shader := true }
      match basetype with
      | .Struct => (b.msl_buffer, marked :: rest, counters)
      | .Image => (b.msl_texture, marked :: rest, counters)
      | .Sampler => (b.msl_sampler, marked :: rest, counters)
      | _ => (0, marked :: rest, counters)
    else
      let r := get_metal_resource_index model v basetype rest counters
      (r.1, b :: r.2.1, r.2.2)

/-! ## Member sorting (`CompilerMSL::MemberSorter`, spirv_msl.cpp
lines 3554-3599) -/

/-- The sorting aspects of `MemberSorter`. -/
inductive SortAspect where
  | Location
  | LocationReverse
  | Offset
  | OffsetThenLocationReverse
  | Alphabetical
deriving DecidableEq, Repr

/-- The per-member meta fields consulted by `MemberSorter::operator()`. -/
structure MemberMeta where
  builtin : Bool
  location : Nat
  offset : Nat
  alias_str : String
deriving DecidableEq

/-- A struct member: its type ID together with its meta record.
`MemberSorter::sort` permutes `type.member_types` and `meta.members` in
tandem, so a member is modelled as the pair. -/
structure StructMember where
  type_id : Nat
  meta : MemberMeta
deriving DecidableEq

/-- Embedding of `CompilerMSL::MemberSorter::operator()` (lines 3576-3599): built-ins sort
after non-built-ins, then the requested aspect decides. -/
def member_compare (aspect : SortAspect) (m1 m2 : MemberMeta) : Bool :=
  if m1.builtin ≠ m2.builtin then m2.builtin
  else match aspect with
  | .Location => decide (m1.location < m2.location)
  | .LocationReverse => decide (m2.location < m1.location)
  | .Offset => decide (m1.offset < m2.offset)
  | .OffsetThenLocationReverse =>
      decide (m1.offset < m2.offset) ||
        (decide (m1.offset = m2.offset) && decide (m2.location < m1.location))
  | .Alphabetical => decide (m1.alias_str < m2.alias_str)

/-- The non-strict order induced by the comparator: `a` may precede `b`
when `b` does not strictly precede `a`.  A sequence sorted by `std::sort`
with the comparator is exactly a sequence pairwise ordered by this
relation. -/
def member_order (aspect : SortAspect) (a b : StructMember) : Prop :=
  member_compare aspect b.meta a.meta = false

instance (aspect : SortAspect) : DecidableRel (member_order aspect) :=
  fun a b =>
    inferInstanceAs (Decidable (member_compare aspect b.meta a.meta = false))

/-- Strict ordering of members by their location meta, used to state the
round-trip property of the double sort. -/
def locLT (a b : StructMember) : Prop :=
  a.meta.location < b.meta.location

instance : DecidableRel locLT :=
  fun a b => inferInstanceAs (Decidable (a.meta.location < b.meta.location))

/-- Embedding of `CompilerMSL::MemberSorter::sort` (lines 3554-3573): the members are
reordered into a permutation that is sorted with respect to the comparator.
The source sorts an index array with `std::sort` and then gathers both member
arrays through it; since the comparator only reads the member meta, this is
the same as sorting the member list itself, and on pairwise-distinct keys any
comparison sort produces the identical unique result. -/
def member_sorter_sort (aspect : SortAspect) (members : List StructMember) :
    List StructMember :=
  List.insertionSort (member_order aspect) members

/-! ## `OpAtomicStore` emission
(`CompilerMSL::emit_instruction`, `OpAtomicStore` case, spirv_msl.cpp
lines 1356-1365) -/

/-- The argument tuple of a call to `emit_atomic_func_op`. -/
structure AtomicFuncCall where
  result_type : Nat
  id : Nat
  op : String
  mem_order_1 : Nat
  mem_order_2 : Nat
  has_mem_order_2 : Bool
  obj : Nat
  op1 : Nat
deriving DecidableEq

/-- The `OpAtomicStore` case of `emit_instruction`: the arguments it passes
to `emit_atomic_func_op`, as read from the instruction's operand words.
`expressionTypeSelf` abstracts `expression_type(id).self`. -/
def op_atomic_store_call (expressionTypeSelf : Nat → Nat) (ops : List Nat) :
    AtomicFuncCall :=
  { result_type := expressionTypeSelf (ops.getD 0 0)
    id := ops.getD 0 0
    op := "atomic_store_explicit"
    mem_order_1 := ops.getD 2 0
    mem_order_2 := ops.getD 2 0
    has_mem_order_2 := false
    obj := ops.getD 0 0
    op1 := ops.getD 3 0 }

/-! ## Secondary input buffer blocks
(`CompilerMSL::move_to_input_buffer`, `add_input_buffer_block_member`,
`get_input_buffer_block_var_id`, `mark_location_as_used_by_shader`,
spirv_msl.cpp lines 383-390, 620-631, 651-688, 695-722) -/

/-- Constant `k_unknown_location = ~0` (spirv_msl.cpp line 27). -/
def k_unknown_location : Nat := 4294967295

/-- Modelled from the spec (§4.2): the base name of the synthesized stage-in
variable; the constant is declared in the back-end header outside the
reviewed fragment. -/
def stage_in_var_name : String := "in"

/-- A vertex-attribute binding record (spec §6). -/
structure MSLVertexAttr where
  location : Nat
  msl_buffer : Nat
  msl_offset : Nat
  msl_stride : Nat
  per_instance : Bool
  used_by_shader : Bool
deriving DecidableEq

/-- A member added to a secondary input buffer block, with the decorations
`add_input_buffer_block_member` records for it. -/
structure InputBlockMember where
  mbr_name : String
  type_id : Nat
  binding : Nat
  offset : Nat
  location : Nat
deriving DecidableEq

/-- A secondary input buffer block: the lazily allocated variable/type IDs,
the variable's name, the struct-level stride decoration, and its members. -/
structure InputBlock where
  var_id : Nat
  type_id : Nat
  var_name : String
  stride : Nat
  members : List InputBlockMember
deriving DecidableEq

/-- The decorations of a variable consulted here: its optional `Location`
decoration and its qualified alias. -/
structure VarDecoration where
  location : Option Nat
  qualified_alias : String
deriving DecidableEq

/-- The compiler state touched by the secondary-input-buffer machinery:
`vtx_attrs_by_location`, the two index-builtin request flags,
`non_stage_in_input_var_ids` (keyed by MSL buffer index), the ID bound, and
the per-variable decorations. -/
structure InterfaceState where
  vtxAttrsByLocation : Nat → Option MSLVertexAttr
  needs_vertex_idx_arg : Bool
  needs_instance_idx_arg : Bool
  nonStageInInputVars : Nat → Option InputBlock
  bound : Nat
  decorations : Nat → VarDecoration

/-- Embedding of `CompilerMSL::mark_location_as_used_by_shader` (lines 383-390): for a
vertex-stage `Input` location that has a vertex-attribute record, set the
record's `used_by_shader` flag. -/
def mark_location_as_used_by_shader (model : ExecutionModel)
    (s : InterfaceState) (location : Nat) (storage : StorageClass) :
    InterfaceState :=
  if model = .Vertex ∧ storage = .Input then
    match s.vtxAttrsByLocation location with
    | some va =>
      { s with vtxAttrsByLocation := fun l =>
          if l = location then some { va with used_by_shader := true }
          else s.vtxAttrsByLocation l }
    | none => s
  else s

/-- Embedding of `CompilerMSL::get_input_buffer_block_var_id` (lines 695-722): return the
block for the MSL buffer index, lazily allocating three IDs (type, variable,
initializer) and naming the variable `in<buffer>` when none exists yet. -/
def get_input_buffer_block_var_id (s : InterfaceState) (msl_buffer : Nat) :
    Nat × InterfaceState :=
  match s.nonStageInInputVars msl_buffer with
  | some blk => (blk.var_id, s)
  | none =>
    let ib_type_id := s.bound
    let ib_var_id := s.bound + 1
    let ib_var_name := stage_in_var_name ++ toString msl_buffer
    let blk : InputBlock :=
      { var_id := ib_var_id
        type_id := ib_type_id
        var_name := ib_var_name
        stride := 0
        members := [] }
    (ib_var_id,
      { s with
        bound := s.bound + 3
        nonStageInInputVars := fun b =>
          if b = msl_buffer then some blk else s.nonStageInInputVars b })

/-- Embedding of `builtin_to_glsl` restricted to the two index built-ins used by the
input-buffer indexing expression (spirv_msl.cpp lines 3155-3158). -/
def builtin_to_glsl_index (per_instance : Bool) : String :=
  if per_instance then "gl_InstanceIndex" else "gl_VertexIndex"

/-- Embedding of `CompilerMSL::add_input_buffer_block_member` (lines 651-688): mark the
location used; when no vertex-attribute record exists for the location,
return the empty string; otherwise request the index built-in, find or create
the block for the record's buffer, store the stride as the block's offset
decoration, append the member with its binding/offset decorations and
`k_unknown_location`, and return the indexed access path. -/
def add_input_buffer_block_member (model : ExecutionModel)
    (s : InterfaceState) (mbr_type_id : Nat) (mbr_name : String)
    (mbr_locn : Nat) : String × InterfaceState :=
  let s1 := mark_location_as_used_by_shader model s mbr_locn .Input
  match s1.vtxAttrsByLocation mbr_locn with
  | none => ("", s1)
  | some va =>
    let s2 := if va.per_instance then { s1 with needs_instance_idx_arg := true }
      else { s1 with needs_vertex_idx_arg := true }
    let r := get_input_buffer_block_var_id s2 va.msl_buffer
    let s3 := r.2
    match s3.nonStageInInputVars va.msl_buffer with
    | none => ("", s3)
    | some blk =>
      let newMember : InputBlockMember :=
        { mbr_name := mbr_name
          type_id := mbr_type_id
          binding := va.msl_buffer
          offset := va.msl_offset
          location := k_unknown_location }
      let blk2 :=
        { blk with
          stride := va.msl_stride
          members := blk.members ++ [newMember] }
      let s4 := { s3 with nonStageInInputVars := fun b =>
        if b = va.msl_buffer then some blk2 else s3.nonStageInInputVars b }
      let idx_var_name := builtin_to_glsl_index va.per_instance
      (blk.var_name ++ "[" ++ idx_var_name ++ "]." ++ mbr_name, s4)

/-- Embedding of `CompilerMSL::ensure_valid_name` (lines 2877-2880): prepend the prefix
when the name starts with an underscore followed by a digit. -/
def ensure_valid_name (name pfx : String) : String :=
  match name.data with
  | c0 :: c1 :: _ => if c0 = '_' ∧ c1.isDigit then pfx ++ name else name
  | _ => name

/-- Embedding of `CompilerMSL::move_to_input_buffer` (lines 620-631): return unchanged
when the variable carries no `Location` decoration; otherwise route the
variable into a secondary input buffer block and store the returned access
path as the variable's qualified alias.  `nameOf` abstracts
`to_expression(var_id)`. -/
def move_to_input_buffer (model : ExecutionModel) (nameOf : Nat → String)
    (s : InterfaceState) (var_id : Nat) (var_basetype : Nat) :
    InterfaceState :=
  match (s.decorations var_id).location with
  | none => s
  | some mbr_locn =>
    let mbr_name := ensure_valid_name (nameOf var_id) "m"
    let r := add_input_buffer_block_member model s var_basetype mbr_name mbr_locn
    { r.2 with decorations := fun v =>
        if v = var_id then
          { r.2.decorations v with qualified_alias := r.1 }
        else r.2.decorations v }

/-! ## Concrete example data used by the closed witness theorems -/

/-- A concrete user-supplied buffer binding record. -/
def egBinding : MSLResourceBinding :=
  { stage := .Vertex
    desc_set := 0
    binding := 1
    msl_buffer := 7
    msl_texture := 0
    msl_sampler := 0
    used_by_shader := false }

/-- A concrete uniform-buffer variable at set 0, binding 1. -/
def egVar : ResourceVar :=
  { storage := .Uniform
    desc_set := 0
    binding := 1 }

/-- A concrete non-built-in member at location 1. -/
def egMemberLoc1 : StructMember :=
  { type_id := 101
    meta :=
      { builtin := false
        location := 1
        offset := 0
        alias_str := "a" } }

/-- A concrete non-built-in member at location 2. -/
def egMemberLoc2 : StructMember :=
  { type_id := 102
    meta :=
      { builtin := false
        location := 2
        offset := 4
        alias_str := "b" } }

/-- A concrete interface state with no vertex-attribute records; variable 5
carries `Location 3` and a non-empty qualified alias. -/
def egInterfaceState : InterfaceState :=
  { vtxAttrsByLocation := fun _ => none
    needs_vertex_idx_arg := false
    needs_instance_idx_arg := false
    nonStageInInputVars := fun _ => none
    bound := 50
    decorations := fun v =>
      if v = 5 then { location := some 3, qualified_alias := "x" }
      else { location := none, qualified_alias := "" } }

/-!
# Theorems
-/

/-! ## Driver-loop lemmas -/

lemma compileLoop_stop (E : PassEmitter) (p : Nat) (h : 3 ≤ p) :
    compileLoop E p = .error overLoopMsg := by
  rw [compileLoop]
  simp [h]

lemma compileLoop_recompile (E : PassEmitter) (p : Nat) (h : p < 3)
    (hf : E.forceRecompile p = true) :
    compileLoop E p = compileLoop E (p + 1) := by
  rw [compileLoop]
  simp [Nat.not_le.mpr h, hf]

lemma compileLoop_done (E : PassEmitter) (p : Nat) (h : p < 3)
    (hf : E.forceRecompile p = false) :
    compileLoop E p = .ok (runEmissionPass E p) := by
  rw [compileLoop]
  simp [Nat.not_le.mpr h, hf]

/-! ## Localization lemmas -/

lemma localizeAux_storage_not_mem (st : Nat → StorageClass) (locals : List Nat)
    (gs : List Nat) (v : Nat) (hv : v ∉ gs) :
    (localizeAux st locals gs).1 v = st v := by
  induction gs generalizing st locals with
  | nil => rfl
  | cons g rest ih =>
    have hvg : v ≠ g := fun h => hv (h ▸ List.mem_cons_self g rest)
    have hvr : v ∉ rest := fun h => hv (List.mem_cons_of_mem g h)
    by_cases h : st g = .Private ∨ st g = .Workgroup
    · simp only [localizeAux, if_pos h]
      rw [ih _ _ hvr]
      simp [hvg]
    · simp only [localizeAux, if_neg h]
      exact ih _ _ hvr

lemma localizeAux_storage_cases (st : Nat → StorageClass) (locals : List Nat)
    (gs : List Nat) (v : Nat) :
    (localizeAux st locals gs).1 v = st v ∨
      (localizeAux st locals gs).1 v = .Function := by
  induction gs generalizing st locals with
  | nil => exact .inl rfl
  | cons g rest ih =>
    by_cases h : st g = .Private ∨ st g = .Workgroup
    · simp only [localizeAux, if_pos h]
      rcases ih (fun x => if x = g then .Function else st x) (locals ++ [g]) with
        h1 | h1
      · rw [h1]
        by_cases hvg : v = g
        · simp [hvg]
        · simp [hvg]
      · exact .inr h1
    · simp only [localizeAux, if_neg h]
      exact ih st locals

lemma localizeAux_globals_subset (st : Nat → StorageClass) (locals : List Nat)
    (gs : List Nat) : ∀ v ∈ (localizeAux st locals gs).2.2, v ∈ gs := by
  induction gs generalizing st locals with
  | nil => intro v hv; exact absurd hv (List.not_mem_nil v)
  | cons g rest ih =>
    intro v hv
    by_cases h : st g = .Private ∨ st g = .Workgroup
    · simp only [localizeAux, if_pos h] at hv
      exact List.mem_cons_of_mem g (ih _ _ v hv)
    · simp only [localizeAux, if_neg h] at hv
      rcases List.mem_cons.mp hv with h1 | h1
      · exact h1 ▸ List.mem_cons_self g rest
      · exact List.mem_cons_of_mem g (ih st locals v h1)

lemma localizeAux_locals_mono (st : Nat → StorageClass) (locals : List Nat)
    (gs : List Nat) : ∀ v ∈ locals, v ∈ (localizeAux st locals gs).2.1 := by
  induction gs generalizing st locals with
  | nil => intro v hv; exact hv
  | cons g rest ih =>
    intro v hv
    by_cases h : st g = .Private ∨ st g = .Workgroup
    · simp only [localizeAux, if_pos h]
      exact ih _ _ v (List.mem_append_left [g] hv)
    · simp only [localizeAux, if_neg h]
      exact ih st locals v hv

lemma localizeAux_moved (st : Nat → StorageClass) (locals : List Nat)
    (gs : List Nat) (hnd : gs.Nodup) (v : Nat) (hv : v ∈ gs)
    (hst : st v = .Private ∨ st v = .Workgroup) :
    (localizeAux st locals gs).1 v = .Function ∧
      v ∈ (localizeAux st locals gs).2.1 ∧
      v ∉ (localizeAux st locals gs).2.2 := by
  induction gs generalizing st locals with
  | nil => exact absurd hv (List.not_mem_nil v)
  | cons g rest ih =>
    have hnd2 := List.nodup_cons.mp hnd
    rcases List.mem_cons.mp hv with hveq | hvr
    · subst hveq
      simp only [localizeAux, if_pos hst]
      refine ⟨?_, ?_, ?_⟩
      · rw [localizeAux_storage_not_mem _ _ _ _ hnd2.1]
        simp
      · exact localizeAux_locals_mono _ _ _ v
          (List.mem_append_right locals (List.mem_cons_self v []))
      · intro hmem
        exact hnd2.1 (localizeAux_globals_subset _ _ _ v hmem)
    · have hvg : v ≠ g := fun h => hnd2.1 (h ▸ hvr)
      by_cases h : st g = .Private ∨ st g = .Workgroup
      · simp only [localizeAux, if_pos h]
        have hst2 : (fun x => if x = g then StorageClass.Function else st x) v =
            .Private ∨
            (fun x => if x = g then StorageClass.Function else st x) v =
            .Workgroup := by
          simp only [if_neg hvg]
          exact hst
        exact ih _ _ hnd2.2 hvr hst2
      · simp only [localizeAux, if_neg h]
        have hres := ih st locals hnd2.2 hvr hst
        refine ⟨hres.1, hres.2.1, ?_⟩
        intro hmem
        rcases List.mem_cons.mp hmem with h1 | h1
        · exact hvg h1
        · exact hres.2.2 h1

lemma localizeAux_remaining (st : Nat → StorageClass) (locals : List Nat)
    (gs : List Nat) :
    ∀ v ∈ (localizeAux st locals gs).2.2,
      (localizeAux st locals gs).1 v ≠ .Private ∧
      (localizeAux st locals gs).1 v ≠ .Workgroup := by
  induction gs generalizing st locals with
  | nil => intro v hv; exact absurd hv (List.not_mem_nil v)
  | cons g rest ih =>
    intro v hv
    by_cases h : st g = .Private ∨ st g = .Workgroup
    · simp only [localizeAux, if_pos h] at hv ⊢
      exact ih _ _ v hv
    · simp only [localizeAux, if_neg h] at hv ⊢
      rcases List.mem_cons.mp hv with h1 | h1
      · subst h1
        push_neg at h
        rcases localizeAux_storage_cases st locals rest v with h2 | h2 <;>
          rw [h2] <;> simp_all
      · exact ih st locals v h1

lemma localizeAux_noop (st : Nat → StorageClass) (locals : List Nat)
    (gs : List Nat)
    (h : ∀ v ∈ gs, st v ≠ .Private ∧ st v ≠ .Workgroup) :
    localizeAux st locals gs = (st, locals, gs) := by
  induction gs with
  | nil => rfl
  | cons g rest ih =>
    have hg := h g (List.mem_cons_self g rest)
    have hcond : ¬(st g = .Private ∨ st g = .Workgroup) := by
      intro hc; rcases hc with hc | hc
      · exact hg.1 hc
      · exact hg.2 hc
    simp only [localizeAux, if_neg hcond]
    rw [ih (fun v hv => h v (List.mem_cons_of_mem g hv))]

/-- C6: after `localize_global_variables` runs, every variable that had
`Private` or `Workgroup` storage has storage class `Function`, is a local of
the entry function, and is gone from the module's global-variable list; no
remaining global has `Private` or `Workgroup` storage; and running the pass a
second time changes nothing. -/
theorem localize_global_variables_spec (s : LocalizeState)
    (hnd : s.globals.Nodup) :
    (∀ v ∈ s.globals, (s.storageOf v = .Private ∨ s.storageOf v = .Workgroup) →
        (localize_global_variables s).storageOf v = .Function ∧
        v ∈ (localize_global_variables s).entryLocals ∧
        v ∉ (localize_global_variables s).globals) ∧
    (∀ v ∈ (localize_global_variables s).globals,
        (localize_global_variables s).storageOf v ≠ .Private ∧
        (localize_global_variables s).storageOf v ≠ .Workgroup) ∧
    localize_global_variables (localize_global_variables s) =
      localize_global_variables s := by
  refine ⟨?_, ?_, ?_⟩
  · intro v hv hst
    exact localizeAux_moved s.storageOf s.entryLocals s.globals hnd v hv hst
  · intro v hv
    exact localizeAux_remaining s.storageOf s.entryLocals s.globals v hv
  · have h := localizeAux_remaining s.storageOf s.entryLocals s.globals
    unfold localize_global_variables
    rw [localizeAux_noop _ _ _ h]

/-- Witness for C6 on a concrete state: variable 1 is `Private`, variable 2 is
`Workgroup`, variable 3 is a `Uniform` that must stay global. -/
theorem localize_global_variables_spec_witness :
    ([1, 2, 3] : List Nat).Nodup ∧
      (∀ v ∈ ([1, 2, 3] : List Nat),
        ((fun n => if n = 1 then StorageClass.Private
          else if n = 2 then StorageClass.Workgroup else StorageClass.Uniform) v =
            .Private ∨
         (fun n => if n = 1 then StorageClass.Private
          else if n = 2 then StorageClass.Workgroup else StorageClass.Uniform) v =
            .Workgroup) →
        (localize_global_variables
            { storageOf := fun n => if n = 1 then StorageClass.Private
                else if n = 2 then StorageClass.Workgroup else StorageClass.Uniform,
              globals := [1, 2, 3], entryLocals := [] }).storageOf v = .Function ∧
        v ∈ (localize_global_variables
            { storageOf := fun n => if n = 1 then StorageClass.Private
                else if n = 2 then StorageClass.Workgroup else StorageClass.Uniform,
              globals := [1, 2, 3], entryLocals := [] }).entryLocals ∧
        v ∉ (localize_global_variables
            { storageOf := fun n => if n = 1 then StorageClass.Private
                else if n = 2 then StorageClass.Workgroup else StorageClass.Uniform,
              globals := [1, 2, 3], entryLocals := [] }).globals) := by
  constructor
  · decide
  · exact (localize_global_variables_spec
      { storageOf := fun n => if n = 1 then StorageClass.Private
          else if n = 2 then StorageClass.Workgroup else StorageClass.Uniform,
        globals := [1, 2, 3], entryLocals := [] } (by decide)).1

/-- C1: the driver loop performs at most three emission passes — each pass
clears the buffer and emits header, specialization constants, resources,
custom functions and the entry function in order — aborting with the
compiler-bug diagnostic when `force_recompile` is still set as a fourth pass
would begin, and otherwise returning the buffered text of the final pass. -/
theorem compile_pass_bound (E : PassEmitter) :
    ((E.forceRecompile 0 = true ∧ E.forceRecompile 1 = true ∧
        E.forceRecompile 2 = true) →
      compileMSL E = .error overLoopMsg) ∧
    (∀ k, k < 3 → (∀ j, j < k → E.forceRecompile j = true) →
      E.forceRecompile k = false →
      compileMSL E = .ok (runEmissionPass E k)) := by
  constructor
  · rintro ⟨h0, h1, h2⟩
    unfold compileMSL
    rw [compileLoop_recompile E 0 (by omega) h0,
        compileLoop_recompile E 1 (by omega) h1,
        compileLoop_recompile E 2 (by omega) h2,
        compileLoop_stop E 3 (by omega)]
  · intro k hk hprev hk0
    unfold compileMSL
    interval_cases k
    · rw [compileLoop_done E 0 (by omega) hk0]
    · rw [compileLoop_recompile E 0 (by omega) (hprev 0 (by omega)),
          compileLoop_done E 1 (by omega) hk0]
    · rw [compileLoop_recompile E 0 (by omega) (hprev 0 (by omega)),
          compileLoop_recompile E 1 (by omega) (hprev 1 (by omega)),
          compileLoop_done E 2 (by omega) hk0]

/-- Witness for C1: an emitter that requests one recompilation finishes on
the second pass and returns that pass's buffer. -/
theorem compile_pass_bound_witness :
    (1 : Nat) < 3 ∧
    (∀ j, j < 1 → (fun k => decide (k = 0)) j = true) ∧
    compileMSL
      { emitHeader := fun _ => "H"
        emitSpecializationConstants := fun _ => "S"
        emitResources := fun _ => "R"
        emitCustomFunctions := fun _ => "C"
        emitEntryFunction := fun _ => "F"
        forceRecompile := fun k => decide (k = 0) } =
      .ok (runEmissionPass
        { emitHeader := fun _ => "H"
          emitSpecializationConstants := fun _ => "S"
          emitResources := fun _ => "R"
          emitCustomFunctions := fun _ => "C"
          emitEntryFunction := fun _ => "F"
          forceRecompile := fun k => decide (k = 0) } 1) :=
  ⟨by decide, by decide,
    (compile_pass_bound
      { emitHeader := fun _ => "H"
        emitSpecializationConstants := fun _ => "S"
        emitResources := fun _ => "R"
        emitCustomFunctions := fun _ => "C"
        emitEntryFunction := fun _ => "F"
        forceRecompile := fun k => decide (k = 0) }).2 1 (by decide)
      (by decide) (by decide)⟩

/-! ## Barrier lemmas -/

lemma emit_barrier_glcompute_shape (cfg : MSLConfiguration)
    (cs : Nat → Nat) (a b c : Nat) :
    ∃ rest, emit_barrier cfg cs .GLCompute a b c =
      some ("threadgroup_barrier(mem_flags::" ++ rest) := by
  unfold emit_barrier
  rw [if_neg (by simp : ¬(ExecutionModel.GLCompute ≠ ExecutionModel.GLCompute))]
  by_cases hios : (cfg.is_ios && cfg.supports_msl_version 2 0) = true
  · simp only [hios, if_true]
    exact ⟨_, by rw [String.append_assoc, String.append_assoc,
      String.append_assoc]⟩
  · simp only [Bool.not_eq_true] at hios
    simp only [hios, Bool.false_eq_true, if_false]
    exact ⟨_, by rw [String.append_assoc]⟩

/-- C4: a control barrier whose immediately preceding instruction was a
memory barrier emits no statement, and a memory barrier immediately followed
by a control barrier in a compute shader adds exactly one
`threadgroup_barrier` statement. -/
theorem control_barrier_suppression (cfg : MSLConfiguration)
    (cs : Nat → Nat) (s : EmitState) (a b c d e : Nat) :
    (s.prevOpcode = .OpMemoryBarrier →
      emit_instruction cfg cs .GLCompute (.controlBarrier c d e) s =
        { prevOpcode := .OpControlBarrier, statements := s.statements }) ∧
    (∃ stmt, emit_barrier cfg cs .GLCompute 0 a b = some stmt ∧
      (emit_instruction cfg cs .GLCompute (.controlBarrier c d e)
          (emit_instruction cfg cs .GLCompute (.memoryBarrier a b) s)).statements =
        s.statements ++ [stmt] ∧
      ∃ rest, stmt = "threadgroup_barrier(mem_flags::" ++ rest) := by
  constructor
  · intro hprev
    simp [emit_instruction, hprev]
  · obtain ⟨rest, hres⟩ := emit_barrier_glcompute_shape cfg cs 0 a b
    refine ⟨_, hres, ?_, rest, rfl⟩
    simp [emit_instruction, hres]

/-- Witness for C4 at a concrete state and concrete operands. -/
theorem control_barrier_suppression_witness :
    ({ prevOpcode := .OpMemoryBarrier, statements := [] } : EmitState).prevOpcode =
        .OpMemoryBarrier ∧
    emit_instruction { platform := .macOS, msl_major := 1, msl_minor := 2 }
        (fun _ => 0) .GLCompute (.controlBarrier 1 2 3)
        { prevOpcode := .OpMemoryBarrier, statements := [] } =
      { prevOpcode := .OpControlBarrier, statements := [] } :=
  ⟨rfl,
    (control_barrier_suppression
      { platform := .macOS, msl_major := 1, msl_minor := 2 } (fun _ => 0)
      { prevOpcode := .OpMemoryBarrier, statements := [] } 1 2 3 1 2).1 rfl⟩

/-- C9: for an entry point whose execution model is not `GLCompute`,
`emit_barrier` emits nothing, so memory-barrier and control-barrier
instructions add no statement to the output. -/
theorem emit_barrier_noncompute (cfg : MSLConfiguration) (cs : Nat → Nat)
    (model : ExecutionModel) (s : EmitState) (a b c d e : Nat)
    (h : model ≠ .GLCompute) :
    emit_barrier cfg cs model a b c = none ∧
    (emit_instruction cfg cs model (.memoryBarrier a b) s).statements =
      s.statements ∧
    (emit_instruction cfg cs model (.controlBarrier c d e) s).statements =
      s.statements := by
  have hb : ∀ x y z, emit_barrier cfg cs model x y z = none := by
    intro x y z
    unfold emit_barrier
    simp [h]
  refine ⟨hb a b c, ?_, ?_⟩
  · simp [emit_instruction, hb]
  · by_cases hprev : s.prevOpcode = .OpMemoryBarrier <;>
      simp [emit_instruction, hprev, hb]

/-- Witness for C9: a vertex-stage barrier emits nothing. -/
theorem emit_barrier_noncompute_witness :
    (ExecutionModel.Vertex ≠ ExecutionModel.GLCompute) ∧
    emit_barrier { platform := .iOS, msl_major := 2, msl_minor := 0 }
        (fun _ => 0) .Vertex 1 2 3 = none :=
  ⟨by decide,
    (emit_barrier_noncompute { platform := .iOS, msl_major := 2, msl_minor := 0 }
      (fun _ => 0) .Vertex { prevOpcode := .OpNop, statements := [] } 1 2 3 1 2
      (by decide)).1⟩

lemma and_two_pow_ne_zero (n i : Nat) : (n &&& 2 ^ i ≠ 0) ↔ n.testBit i = true := by
  rw [Nat.and_two_pow]
  cases h : n.testBit i <;> simp [h, Nat.pos_iff_ne_zero, Nat.pow_eq_zero]

lemma or_eq_zero_iff (x y : Nat) : x ||| y = 0 ↔ x = 0 ∧ y = 0 := by
  constructor
  · intro h
    constructor
    · by_contra hx
      obtain ⟨i, hi⟩ := Nat.ne_zero_implies_bit_true hx
      have hb : (x ||| y).testBit i = true := by
        rw [Nat.testBit_or, hi]
        rfl
      rw [h, Nat.zero_testBit] at hb
      exact Bool.false_ne_true hb
    · by_contra hy
      obtain ⟨i, hi⟩ := Nat.ne_zero_implies_bit_true hy
      have hb : (x ||| y).testBit i = true := by
        rw [Nat.testBit_or, hi, Bool.or_true]
      rw [h, Nat.zero_testBit] at hb
      exact Bool.false_ne_true hb
  · rintro ⟨hx, hy⟩
    simp [hx, hy]

lemma flag_select_eq (sem : Nat) :
    (if sem &&& MemorySemanticsCrossWorkgroupMemoryMask ≠ 0 then "mem_device"
     else if sem &&& (MemorySemanticsSubgroupMemoryMask |||
         MemorySemanticsWorkgroupMemoryMask |||
         MemorySemanticsAtomicCounterMemoryMask) ≠ 0 then "mem_threadgroup"
     else if sem &&& MemorySemanticsImageMemoryMask ≠ 0 then "mem_texture"
     else "mem_none") = memFlagChoice sem := by
  have h9 : (sem &&& MemorySemanticsCrossWorkgroupMemoryMask ≠ 0) ↔
      sem.testBit 9 = true := by
    have : MemorySemanticsCrossWorkgroupMemoryMask = 2 ^ 9 := by
      norm_num [MemorySemanticsCrossWorkgroupMemoryMask]
    rw [this, and_two_pow_ne_zero]
  have h11 : (sem &&& MemorySemanticsImageMemoryMask ≠ 0) ↔
      sem.testBit 11 = true := by
    have : MemorySemanticsImageMemoryMask = 2 ^ 11 := by
      norm_num [MemorySemanticsImageMemoryMask]
    rw [this, and_two_pow_ne_zero]
  have hmid : (sem &&& (MemorySemanticsSubgroupMemoryMask |||
      MemorySemanticsWorkgroupMemoryMask |||
      MemorySemanticsAtomicCounterMemoryMask) ≠ 0) ↔
      (sem.testBit 7 || sem.testBit 8 || sem.testBit 10) = true := by
    have h7 : MemorySemanticsSubgroupMemoryMask = 2 ^ 7 := by
      norm_num [MemorySemanticsSubgroupMemoryMask]
    have h8 : MemorySemanticsWorkgroupMemoryMask = 2 ^ 8 := by
      norm_num [MemorySemanticsWorkgroupMemoryMask]
    have h10 : MemorySemanticsAtomicCounterMemoryMask = 2 ^ 10 := by
      norm_num [MemorySemanticsAtomicCounterMemoryMask]
    rw [h7, h8, h10, Nat.and_or_distrib_left, Nat.and_or_distrib_left]
    rw [ne_eq, or_eq_zero_iff, or_eq_zero_iff]
    push_neg
    rw [Bool.or_eq_true, Bool.or_eq_true]
    rw [← and_two_pow_ne_zero sem 7, ← and_two_pow_ne_zero sem 8,
      ← and_two_pow_ne_zero sem 10]
    tauto
  unfold memFlagChoice
  simp only [h9, h11, hmid]

lemma scope_select_eq (scope : Nat) :
    (if scope = ScopeCrossDevice ∨ scope = ScopeDevice then "memory_scope_device"
     else if scope = ScopeSubgroup ∨ scope = ScopeInvocation then
       "memory_scope_simdgroup"
     else "memory_scope_threadgroup") = scopeChoice scope := by
  unfold scopeChoice ScopeCrossDevice ScopeDevice ScopeSubgroup ScopeInvocation
  split_ifs <;> first | rfl | omega

/-- C5 (amended): `emit_barrier` selects the mem_flags argument from the
SPIR-V memory-semantics mask — cross-workgroup (bit 9) maps to `mem_device`;
subgroup (bit 7), workgroup (bit 8) or atomic-counter (bit 10) maps to
`mem_threadgroup`; image (bit 11) maps to `mem_texture`; otherwise
`mem_none` — and, when the platform is iOS and the MSL version is at least 2,
additionally appends a memory scope derived from the *wider* (numerically
smaller) of the execution scope and the memory scope. -/
theorem emit_barrier_characterization (cfg : MSLConfiguration)
    (cs : Nat → Nat) (model : ExecutionModel)
    (id_exe_scope id_mem_scope id_mem_sem : Nat) (h : model = .GLCompute) :
    emit_barrier cfg cs model id_exe_scope id_mem_scope id_mem_sem =
      some ("threadgroup_barrier(mem_flags::" ++
        memFlagChoice
          (if id_mem_sem ≠ 0 then cs id_mem_sem else MemorySemanticsMaskNone) ++
        (if cfg.is_ios && cfg.supports_msl_version 2 0 then
          ", " ++ scopeChoice
            (widerScope
              (if id_exe_scope ≠ 0 then cs id_exe_scope else ScopeInvocation)
              (if id_mem_scope ≠ 0 then cs id_mem_scope else ScopeInvocation))
        else "") ++ ");") := by
  subst h
  unfold emit_barrier
  rw [if_neg (by simp : ¬(ExecutionModel.GLCompute ≠ ExecutionModel.GLCompute))]
  simp only [flag_select_eq, scope_select_eq]
  by_cases hios : (cfg.is_ios && cfg.supports_msl_version 2 0) = true
  · simp only [hios, if_true, widerScope]
    simp only [String.append_assoc]
  · simp only [Bool.not_eq_true] at hios
    simp only [hios, Bool.false_eq_true, if_false, String.append_empty]

/-- Witness for C5's amended theorem at a concrete configuration. -/
theorem emit_barrier_characterization_witness :
    (ExecutionModel.GLCompute = ExecutionModel.GLCompute) ∧
    emit_barrier { platform := .iOS, msl_major := 2, msl_minor := 0 }
        (fun i => i) .GLCompute 1 2 0 =
      some ("threadgroup_barrier(mem_flags::" ++
        memFlagChoice
          (if (0 : Nat) ≠ 0 then (fun i => i) 0 else MemorySemanticsMaskNone) ++
        (if ({ platform := .iOS, msl_major := 2, msl_minor := 0 } :
              MSLConfiguration).is_ios &&
            ({ platform := .iOS, msl_major := 2, msl_minor := 0 } :
              MSLConfiguration).supports_msl_version 2 0 then
          ", " ++ scopeChoice
            (widerScope
              (if (1 : Nat) ≠ 0 then (fun i => i) 1 else ScopeInvocation)
              (if (2 : Nat) ≠ 0 then (fun i => i) 2 else ScopeInvocation))
        else "") ++ ");") :=
  ⟨rfl, emit_barrier_characterization
    { platform := .iOS, msl_major := 2, msl_minor := 0 }
    (fun i => i) .GLCompute 1 2 0 rfl⟩

/-- C5 counterexample to the claim as stated: with execution scope `Device`
(1) and memory scope `Workgroup` (2) on iOS with MSL 2, the source emits
`memory_scope_device` (the wider scope, numerically smaller value), not the
scope derived from the narrower of the two as the claim's sentence says. -/
theorem emit_barrier_scope_counterexample :
    emit_barrier { platform := .iOS, msl_major := 2, msl_minor := 0 }
        (fun i => i) .GLCompute 1 2 0 =
      some "threadgroup_barrier(mem_flags::mem_none, memory_scope_device);" ∧
    emit_barrier_narrow_variant
        { platform := .iOS, msl_major := 2, msl_minor := 0 }
        (fun i => i) .GLCompute 1 2 0 =
      some "threadgroup_barrier(mem_flags::mem_none, memory_scope_threadgroup);" ∧
    emit_barrier { platform := .iOS, msl_major := 2, msl_minor := 0 }
        (fun i => i) .GLCompute 1 2 0 ≠
      emit_barrier_narrow_variant
        { platform := .iOS, msl_major := 2, msl_minor := 0 }
        (fun i => i) .GLCompute 1 2 0 := by
  refine ⟨by decide, by decide, by decide⟩

/-- C2: for a fragment entry point, a non-built-in matrix or array member of
an `Input` or `Output` interface variable throws the unsupported-construct
diagnostic; for a vertex entry point the same condition on `Output` throws,
while on vertex `Input` the member is diverted to a secondary input buffer
block (`should_move_to_input_buffer` returns `true`) and is not placed in
the stage-in struct. -/
theorem should_move_to_input_buffer_spec (t : SPIRType) (ib : Bool)
    (storage : StorageClass) (model : ExecutionModel) (ha : Bool)
    (hma : is_matrix t = true ∨ is_array t = true) (hnb : ib = false) :
    (model = .Fragment → storage = .Input →
      should_move_to_input_buffer t ib storage model =
        .error "The fragment function stage_in structure may not include a matrix or array.") ∧
    (model = .Fragment → storage = .Output →
      should_move_to_input_buffer t ib storage model =
        .error "The fragment function output structure may not include a matrix or array.") ∧
    (model = .Vertex → storage = .Output →
      should_move_to_input_buffer t ib storage model =
        .error "The vertex function output structure may not include a matrix or array.") ∧
    (model = .Vertex → storage = .Input →
      should_move_to_input_buffer t ib storage model = .ok true ∧
      interface_member_action t ib ha storage model = .ok .moveToInputBuffer) := by
  subst hnb
  have hor : (is_matrix t || is_array t) = true := by
    rcases hma with h | h <;> simp [h]
  refine ⟨?_, ?_, ?_, ?_⟩
  · intro hm hs; subst hm; subst hs
    simp [should_move_to_input_buffer, hor]
  · intro hm hs; subst hm; subst hs
    simp [should_move_to_input_buffer, hor]
  · intro hm hs; subst hm; subst hs
    simp [should_move_to_input_buffer, hor]
  · intro hm hs; subst hm; subst hs
    have hok : should_move_to_input_buffer t false .Input .Vertex = .ok true := by
      simp [should_move_to_input_buffer, hor]
    refine ⟨hok, ?_⟩
    unfold interface_member_action
    rw [hok]

/-- Witness for C2 on a `mat4` vertex input. -/
theorem should_move_to_input_buffer_spec_witness :
    (is_matrix { columns := 4, vecsize := 4, array := [] } = true ∨
      is_array { columns := 4, vecsize := 4, array := [] } = true) ∧
    should_move_to_input_buffer { columns := 4, vecsize := 4, array := [] }
        false .Input .Vertex = .ok true ∧
    interface_member_action { columns := 4, vecsize := 4, array := [] }
        false true .Input .Vertex = .ok .moveToInputBuffer :=
  ⟨by decide,
    (should_move_to_input_buffer_spec
      { columns := 4, vecsize := 4, array := [] } false .Input .Vertex true
      (by decide) rfl).2.2.2 rfl rfl⟩

/-! ## Resource-index lemmas -/

lemma gmri_no_match (model : ExecutionModel) (v : ResourceVar)
    (basetype : BaseType) (bindings : List MSLResourceBinding)
    (counters : MSLResourceBinding)
    (h : ∀ b ∈ bindings, resource_binding_matches model v b = false) :
    get_metal_resource_index model v basetype bindings counters =
      ((get_metal_resource_index model v basetype [] counters).1, bindings,
        (get_metal_resource_index model v basetype [] counters).2.2) := by
  induction bindings with
  | nil => cases basetype <;> rfl
  | cons b rest ih =>
    have hb := h b (List.mem_cons_self b rest)
    have hrest := fun b2 hb2 => h b2 (List.mem_cons_of_mem b hb2)
    simp only [get_metal_resource_index, hb, Bool.false_eq_true, if_false]
    rw [ih hrest]
    rfl

lemma gmri_first_match (model : ExecutionModel) (v : ResourceVar)
    (basetype : BaseType) (pre : List MSLResourceBinding)
    (b : MSLResourceBinding) (post : List MSLResourceBinding)
    (counters : MSLResourceBinding)
    (hpre : ∀ b2 ∈ pre, resource_binding_matches model v b2 = false)
    (hb : resource_binding_matches model v b = true) :
    get_metal_resource_index model v basetype (pre ++ b :: post) counters =
      ((get_metal_resource_index model v basetype (b :: post) counters).1,
        pre ++ (get_metal_resource_index model v basetype (b :: post) counters).2.1,
        counters) := by
  induction pre with
  | nil =>
    simp only [List.nil_append]
    simp only [get_metal_resource_index, hb, if_true]
    cases basetype <;> rfl
  | cons p rest ih =>
    have hp := hpre p (List.mem_cons_self p rest)
    have hrest := fun b2 hb2 => hpre b2 (List.mem_cons_of_mem p hb2)
    simp only [List.cons_append, get_metal_resource_index, hp,
      Bool.false_eq_true, if_false, List.append_eq]
    rw [ih hrest]
    rfl

/-- C3: `get_metal_resource_index` returns the per-class MSL index of the
first user-supplied resource-binding record matching the variable's stage,
descriptor set and binding (with push-constant sentinels substituted) and
flags that record used, leaving the counters unchanged; when no record
matches, it returns the current per-class automatic counter and increments
that counter by one, leaving the records unchanged. -/
theorem get_metal_resource_index_spec (model : ExecutionModel)
    (v : ResourceVar) (basetype : BaseType)
    (bindings : List MSLResourceBinding) (counters : MSLResourceBinding) :
    ((∀ b ∈ bindings, resource_binding_matches model v b = false) →
      (basetype = .Struct →
        get_metal_resource_index model v basetype bindings counters =
          (counters.msl_buffer, bindings,
            { counters with msl_buffer := counters.msl_buffer + 1 })) ∧
      (basetype = .Image →
        get_metal_resource_index model v basetype bindings counters =
          (counters.msl_texture, bindings,
            { counters with msl_texture := counters.msl_texture + 1 })) ∧
      (basetype = .Sampler →
        get_metal_resource_index model v basetype bindings counters =
          (counters.msl_sampler, bindings,
            { counters with msl_sampler := counters.msl_sampler + 1 }))) ∧
    (∀ pre b post, bindings = pre ++ b :: post →
      (∀ b2 ∈ pre, resource_binding_matches model v b2 = false) →
      resource_binding_matches model v b = true →
      (basetype = .Struct →
        get_metal_resource_index model v basetype bindings counters =
          (b.msl_buffer, pre ++ { b with used_by_shader := true } :: post,
            counters)) ∧
      (basetype = .Image →
        get_metal_resource_index model v basetype bindings counters =
          (b.msl_texture, pre ++ { b with used_by_shader := true } :: post,
            counters)) ∧
      (basetype = .Sampler →
        get_metal_resource_index model v basetype bindings counters =
          (b.msl_sampler, pre ++ { b with used_by_shader := true } :: post,
            counters))) := by
  constructor
  · intro hall
    refine ⟨?_, ?_, ?_⟩ <;> intro hbt <;> subst hbt <;>
      rw [gmri_no_match model v _ bindings counters hall] <;> rfl
  · intro pre b post hsplit hpre hb
    subst hsplit
    refine ⟨?_, ?_, ?_⟩ <;> intro hbt <;> subst hbt <;>
      rw [gmri_first_match model v _ pre b post counters hpre hb] <;>
      simp only [get_metal_resource_index, hb, if_true]

/-- Witness for C3: a single matching buffer record preempts the counter. -/
theorem get_metal_resource_index_spec_witness :
    ([egBinding] = [] ++ egBinding :: []) ∧
    resource_binding_matches .Vertex egVar egBinding = true ∧
    get_metal_resource_index .Vertex egVar .Struct [egBinding]
        MSLResourceBinding.zero =
      (egBinding.msl_buffer,
        [] ++ { egBinding with used_by_shader := true } :: [],
        MSLResourceBinding.zero) := by
  refine ⟨rfl, by decide, ?_⟩
  exact ((get_metal_resource_index_spec .Vertex egVar .Struct [egBinding]
      MSLResourceBinding.zero).2 [] egBinding []
      rfl (by decide) (by decide)).1 rfl

/-! ## Member-sorter lemmas -/

lemma member_order_loc_iff (a b : StructMember) :
    member_order .Location a b ↔
      ((a.meta.builtin = false ∧ b.meta.builtin = true) ∨
        (a.meta.builtin = b.meta.builtin ∧
          a.meta.location ≤ b.meta.location)) := by
  unfold member_order member_compare
  by_cases h : b.meta.builtin ≠ a.meta.builtin
  · rw [if_pos h]
    cases hb : b.meta.builtin <;> cases ha : a.meta.builtin <;> simp_all
  · rw [if_neg h]
    push_neg at h
    cases hb : b.meta.builtin <;> cases ha : a.meta.builtin <;>
      simp_all [Nat.not_lt]

lemma member_order_loc_total (a b : StructMember) :
    member_order .Location a b ∨ member_order .Location b a := by
  rw [member_order_loc_iff, member_order_loc_iff]
  cases ha : a.meta.builtin <;> cases hb : b.meta.builtin <;> simp <;> omega

lemma member_order_loc_trans (a b c : StructMember)
    (hab : member_order .Location a b) (hbc : member_order .Location b c) :
    member_order .Location a c := by
  rw [member_order_loc_iff] at hab hbc ⊢
  rcases hab with ⟨h1, h2⟩ | ⟨h1, h2⟩ <;>
    rcases hbc with ⟨h3, h4⟩ | ⟨h3, h4⟩ <;> simp_all
  all_goals omega

/-- C7 (amended): for a struct all of whose members are non-built-in with
strictly increasing (hence pairwise-distinct) locations, sorting with
`MemberSorter` by descending location and then sorting again by ascending
location restores the original member order.  (On an arbitrary original
order the double sort instead yields ascending-location order, see the
counterexample.) -/
theorem member_sort_roundtrip (l : List StructMember)
    (hnb : ∀ m ∈ l, m.meta.builtin = false)
    (hasc : l.Chain' locLT) :
    member_sorter_sort .Location (member_sorter_sort .LocationReverse l) = l := by
  haveI : IsTotal StructMember (member_order .Location) := ⟨member_order_loc_total⟩
  haveI : IsTrans StructMember (member_order .Location) :=
    ⟨member_order_loc_trans⟩
  haveI : IsTrans StructMember locLT :=
    ⟨fun a b c h1 h2 => Nat.lt_trans h1 h2⟩
  haveI : IsAntisymm StructMember locLT :=
    ⟨fun a b h1 h2 => absurd h2 (Nat.lt_asymm h1)⟩
  have hp1 : List.Perm (member_sorter_sort .LocationReverse l) l :=
    List.perm_insertionSort _ l
  have hp2 : List.Perm
      (member_sorter_sort .Location (member_sorter_sort .LocationReverse l))
      (member_sorter_sort .LocationReverse l) :=
    List.perm_insertionSort _ _
  have hperm : List.Perm
      (member_sorter_sort .Location (member_sorter_sort .LocationReverse l))
      l := hp2.trans hp1
  have hs2 : List.Sorted (member_order .Location)
      (member_sorter_sort .Location (member_sorter_sort .LocationReverse l)) :=
    List.sorted_insertionSort _ _
  have hsl : List.Sorted locLT l := List.chain'_iff_pairwise.mp hasc
  have hne : l.Pairwise (fun a b => a.meta.location ≠ b.meta.location) :=
    hsl.imp (fun h => Nat.ne_of_lt h)
  have hne2 : (member_sorter_sort .Location
      (member_sorter_sort .LocationReverse l)).Pairwise
      (fun a b => a.meta.location ≠ b.meta.location) :=
    (hperm.pairwise_iff (fun h => Ne.symm h)).mpr hne
  have hmem : ∀ m ∈ member_sorter_sort .Location
      (member_sorter_sort .LocationReverse l), m.meta.builtin = false :=
    fun m hm => hnb m (hperm.mem_iff.mp hm)
  have hs2lt : List.Sorted locLT (member_sorter_sort .Location
      (member_sorter_sort .LocationReverse l)) := by
    refine (hs2.and hne2).imp_of_mem ?_
    intro a b ha hb hcomb
    have ha2 := hmem a ha
    have hb2 := hmem b hb
    have h1 := hcomb.1
    rw [member_order_loc_iff] at h1
    unfold locLT
    rcases h1 with ⟨h3, h4⟩ | ⟨h3, h4⟩
    · rw [hb2] at h4
      exact absurd h4 (by simp)
    · exact Nat.lt_of_le_of_ne h4 hcomb.2
  exact List.eq_of_perm_of_sorted hperm hs2lt hsl

/-- Witness for C7's amended theorem: two non-built-in members already in
ascending location order survive the double sort unchanged. -/
theorem member_sort_roundtrip_witness :
    (∀ m ∈ [egMemberLoc1, egMemberLoc2], m.meta.builtin = false) ∧
    List.Chain' locLT [egMemberLoc1, egMemberLoc2] ∧
    member_sorter_sort .Location
        (member_sorter_sort .LocationReverse [egMemberLoc1, egMemberLoc2]) =
      [egMemberLoc1, egMemberLoc2] :=
  ⟨by decide,
    by simp [List.chain'_cons, List.chain'_singleton, locLT, egMemberLoc1,
      egMemberLoc2],
    member_sort_roundtrip [egMemberLoc1, egMemberLoc2] (by decide)
      (by simp [List.chain'_cons, List.chain'_singleton, locLT, egMemberLoc1,
        egMemberLoc2])⟩

/-- C7 counterexample to the claim as stated: two non-built-in members with
pairwise-distinct locations listed in descending order (locations 2 then 1)
are *not* restored by sorting with `LocationReverse` and then `Location`; the
double sort returns them in ascending location order instead. -/
theorem member_sort_roundtrip_counterexample :
    member_sorter_sort .Location
        (member_sorter_sort .LocationReverse [egMemberLoc2, egMemberLoc1]) ≠
      [egMemberLoc2, egMemberLoc1] := by
  decide

/-! ## `OpAtomicStore` operand indices -/

/-- C8 (amended): the `OpAtomicStore` emission path takes the pointer (and
the expression id whose type supplies the result type) from `ops[0]`, the
memory semantics from `ops[2]` (passed twice, with no second memory order),
and the stored value from `ops[3]` — it does not read all three operands
from `ops[0]`. -/
theorem atomic_store_operand_indices (f : Nat → Nat) (ops : List Nat)
    (h : 3 < ops.length) :
    (op_atomic_store_call f ops).obj = ops.get ⟨0, by omega⟩ ∧
    (op_atomic_store_call f ops).mem_order_1 = ops.get ⟨2, by omega⟩ ∧
    (op_atomic_store_call f ops).mem_order_2 = ops.get ⟨2, by omega⟩ ∧
    (op_atomic_store_call f ops).op1 = ops.get ⟨3, by omega⟩ ∧
    (op_atomic_store_call f ops).id = ops.get ⟨0, by omega⟩ ∧
    (op_atomic_store_call f ops).result_type = f (ops.get ⟨0, by omega⟩) ∧
    (op_atomic_store_call f ops).op = "atomic_store_explicit" ∧
    (op_atomic_store_call f ops).has_mem_order_2 = false := by
  have e0 : ops.getD 0 0 = ops.get ⟨0, by omega⟩ := by
    rw [List.getD_eq_getElem?_getD,
      List.getElem?_eq_getElem (by omega : 0 < ops.length)]
    rfl
  have e2 : ops.getD 2 0 = ops.get ⟨2, by omega⟩ := by
    rw [List.getD_eq_getElem?_getD,
      List.getElem?_eq_getElem (by omega : 2 < ops.length)]
    rfl
  have e3 : ops.getD 3 0 = ops.get ⟨3, by omega⟩ := by
    rw [List.getD_eq_getElem?_getD,
      List.getElem?_eq_getElem (by omega : 3 < ops.length)]
    rfl
  unfold op_atomic_store_call
  exact ⟨e0, e2, e2, e3, e0, by rw [e0], rfl, rfl⟩

/-- Witness for C8's amended theorem at concrete operands. -/
theorem atomic_store_operand_indices_witness :
    3 < ([10, 11, 12, 13] : List Nat).length ∧
    (op_atomic_store_call (fun i => i) [10, 11, 12, 13]).mem_order_1 =
      ([10, 11, 12, 13] : List Nat).get ⟨2, by decide⟩ :=
  ⟨by decide,
    (atomic_store_operand_indices (fun i => i) [10, 11, 12, 13]
      (by decide)).2.1⟩

/-- C8 counterexample to the claim as stated: on operands `[10, 11, 12, 13]`
the pointer is `10 = ops[0]` but the memory-semantics argument is
`12 = ops[2]` and the value argument is `13 = ops[3]`, so the three arguments
are not all taken from operand index 0. -/
theorem atomic_store_ops_counterexample :
    ¬((op_atomic_store_call (fun i => i) [10, 11, 12, 13]).obj = 10 ∧
      (op_atomic_store_call (fun i => i) [10, 11, 12, 13]).mem_order_1 = 10 ∧
      (op_atomic_store_call (fun i => i) [10, 11, 12, 13]).op1 = 10) := by
  decide

/-! ## Secondary-input-buffer lemmas -/

lemma mark_location_none (model : ExecutionModel) (s : InterfaceState)
    (location : Nat) (storage : StorageClass)
    (h : s.vtxAttrsByLocation location = none) :
    mark_location_as_used_by_shader model s location storage = s := by
  unfold mark_location_as_used_by_shader
  rw [h]
  split <;> rfl

/-- C10: when a member is routed to a secondary input buffer but no
vertex-attribute record exists at its location,
`add_input_buffer_block_member` returns the empty string with the state
unchanged, so `move_to_input_buffer` merely sets the variable's qualified
alias to the empty string — the member is silently dropped with no
diagnostic; and `move_to_input_buffer` returns with no effect at all when
the variable carries no `Location` decoration. -/
theorem input_buffer_missing_binding (model : ExecutionModel)
    (nameOf : Nat → String) (s : InterfaceState)
    (var_id btype locn : Nat)
    (h2 : s.vtxAttrsByLocation locn = none) :
    (∀ tid nm, add_input_buffer_block_member model s tid nm locn = ("", s)) ∧
    ((s.decorations var_id).location = some locn →
      move_to_input_buffer model nameOf s var_id btype =
        { s with decorations := fun v =>
            if v = var_id then
              { s.decorations v with qualified_alias := "" }
            else s.decorations v }) ∧
    ((s.decorations var_id).location = none →
      move_to_input_buffer model nameOf s var_id btype = s) := by
  have hadd : ∀ tid nm,
      add_input_buffer_block_member model s tid nm locn = ("", s) := by
    intro tid nm
    unfold add_input_buffer_block_member
    rw [mark_location_none model s locn .Input h2]
    simp only [h2]
  refine ⟨hadd, ?_, ?_⟩
  · intro h1
    unfold move_to_input_buffer
    simp only [h1, hadd]
  · intro h0
    unfold move_to_input_buffer
    simp only [h0]

/-- Witness for C10: in a state with no vertex-attribute records, routing a
member at location 3 returns the empty string and leaves the state intact. -/
theorem input_buffer_missing_binding_witness :
    egInterfaceState.vtxAttrsByLocation 3 = none ∧
    add_input_buffer_block_member .Vertex egInterfaceState 9 "n" 3 =
      ("", egInterfaceState) :=
  ⟨rfl,
    (input_buffer_missing_binding .Vertex (fun _ => "v") egInterfaceState
      5 9 3 rfl).1 9 "n"⟩

end SpirvMSL
